import Mathlib

/-!
Verification of the geospatial ingestion back end (src/app.py, src/tools.py)
against its natural-language specification.

The Python source is shallowly embedded: pure logic is translated into
executable Lean definitions; external collaborators (the GIS engine's
coordinate transforms, geometry buffering, spatial index, the imaging
library's resampling filter) are passed in as explicit function parameters,
in keeping with the specification, which declares them out of scope and
specifies them only at their interface boundary.
-/

namespace GisChat

/-- One element of the per-file result list built by `upload_files`
(app.py).  Mirrors the result dictionaries: every branch of
`process_shapefile` / `process_raster` and the sidecar pre-check sets
`success`, `name` and (on failure) `error`; the success payloads
(`geojson` / image data) are not needed by the batch-level claims and are
not carried here. -/
structure Entry where
  success : Bool
  name : String
  error : Option String
deriving DecidableEq, Repr

/-- An uploaded file as seen by `upload_files` (app.py:245).  `filename` is
`UploadFile.filename`; `zipOpens` records whether `zipfile.ZipFile` can open
the saved bytes (app.py:52: a corrupt archive raises `BadZipFile` there);
`zipMembers` are the top-level file names produced by `extractall` when the
archive does open.  Non-zip content is opaque at this level: the per-file
processors are parameters of the orchestration model. -/
structure UFile where
  filename : String
  zipOpens : Bool
  zipMembers : List String
deriving DecidableEq, Repr

/-- Python `str.lower()`, character-wise ASCII case folding (the file
names and extensions the pipeline compares are ASCII; the model is
restricted to ASCII case folding). -/
def strToLower (s : String) : String :=
  String.mk (s.data.map Char.toLower)

/-- Python `str.endswith(suffix)`. -/
def strEndsWith (s suffix : String) : Bool :=
  suffix.data.isSuffixOf s.data

/-- Python `sep.join(parts)` (for nonempty `parts`, as used here). -/
def strJoin (sep : String) (l : List String) : String :=
  match l with
  | [] => ""
  | x :: xs => xs.foldl (fun acc y => acc ++ sep ++ y) x

/-- Index of the last dot in a character list, or the length when there is
no dot.  Helper for `splitextBase`. -/
def lastDotIdx (cs : List Char) : Nat :=
  match cs.reverse.findIdx? (fun c => c = '.') with
  | some j => cs.length - 1 - j
  | none => cs.length

/-- The base-name part of `os.path.splitext`: split at the last dot, except
that a name whose only dots are leading dots (a hidden file such as
`.shp`) is not split at all.  Used at app.py:254. -/
def splitextBase (s : String) : String :=
  let cs := s.data
  let pre := cs.take (lastDotIdx cs)
  if pre.any (fun c => c ≠ '.') then String.mk pre else s

/-- Python `repr`-style rendering of the missing-extension list interpolated
into the error message at app.py:262 (quoting of the members is elided). -/
def fmtStrList (l : List String) : String :=
  "[" ++ strJoin ", " l ++ "]"

/-- The error message built at app.py:262. -/
def sidecarError (missing : List String) : String :=
  "Missing required Shapefile components: " ++ fmtStrList missing

/-- app.py:254-256: for one (lowercased) `.shp` name, the required sidecar
names `{base}.shx` and `{base}.dbf` that are absent from the lowercased
upload list. -/
def missingFor (lowered : List String) (shp : String) : List String :=
  let base := splitextBase shp
  [base ++ ".shx", base ++ ".dbf"].filter (fun e => !(lowered.contains e))

/-- app.py:257-263: the failure entry appended for one `.shp` when some
sidecar is missing, `none` when the shapefile is complete. -/
def sidecarCheckEntry (lowered : List String) (shp : String) : Option Entry :=
  if missingFor lowered shp = [] then none
  else some ⟨false, shp, some (sidecarError (missingFor lowered shp))⟩

/-- app.py:252-264: the batch-level sidecar pre-check.  The Python loop
returns on the first `.shp` with a missing sidecar; `List.findSome?`
produces exactly that first failure. -/
def sidecarFailure (lowered : List String) : Option Entry :=
  (lowered.filter (fun s => strEndsWith s ".shp")).findSome? (sidecarCheckEntry lowered)

/-- Append each member name not already present (extraction overwrites
files that already exist on disk, so a duplicated name does not add a
directory entry). -/
def addMembers (tdir : List String) (ms : List String) : List String :=
  ms.foldl (fun acc m => if m ∈ acc then acc else acc ++ [m]) tdir

/-- app.py:40-57, `extract_zip`: the archive (already saved in the scratch
directory by the save loop) is opened; a corrupt archive raises
`BadZipFile`, which the caller does not catch.  On success `extractall`
adds the members and the function returns `os.listdir` of the scratch
directory, i.e. every file present, not only the archive's members.
`os.listdir` order is unspecified; it is modelled as insertion order. -/
def extract_zip (f : UFile) (tdir : List String) : Except String (List String) :=
  if f.zipOpens then .ok (addMembers tdir f.zipMembers)
  else .error ("BadZipFile: " ++ f.filename)

/-- app.py:277-292, the per-file processing loop.  `procShp` and `procRas`
stand for `process_shapefile` / `process_raster` (app.py:115-242), whose
outcome depends on on-disk and format state external to the orchestration;
the source guarantees that each returns exactly one result dictionary
whose `name` is the base name of its argument.  `tdir` is the set of files
currently in the scratch directory (the save loop at app.py:266-273 has
already written every uploaded file).  A `BadZipFile` escaping
`extract_zip` propagates out of the endpoint (`Except.error`): there is no
surrounding handler in the source. -/
def upload_loop (procShp procRas : String → Entry) :
    List UFile → List String → Except String (List Entry)
  | [], _ => .ok []
  | f :: rest, tdir =>
    if strEndsWith (strToLower f.filename) ".zip" then
      match extract_zip f tdir with
      | .error e => .error e
      | .ok allFiles =>
        match upload_loop procShp procRas rest allFiles with
        | .error e => .error e
        | .ok tailRes =>
          .ok ((allFiles.filter (fun s => strEndsWith (strToLower s) ".shp")).map procShp ++ tailRes)
    else if strEndsWith (strToLower f.filename) ".shp" then
      match upload_loop procShp procRas rest tdir with
      | .error e => .error e
      | .ok tailRes => .ok (procShp f.filename :: tailRes)
    else if strEndsWith (strToLower f.filename) ".tif" || strEndsWith (strToLower f.filename) ".tiff" then
      match upload_loop procShp procRas rest tdir with
      | .error e => .error e
      | .ok tailRes => .ok (procRas f.filename :: tailRes)
    else
      upload_loop procShp procRas rest tdir

/-- app.py:244-299, the `/upload` endpoint body: lowercase the uploaded
names, run the batch-level sidecar pre-check (returning a single-entry
response on its first failure), otherwise save every file into the scratch
directory and run the processing loop. -/
def upload_files (procShp procRas : String → Entry) (batch : List UFile) :
    Except String (List Entry) :=
  let lowered := batch.map (fun f => strToLower f.filename)
  match sidecarFailure lowered with
  | some e => .ok [e]
  | none => upload_loop procShp procRas batch (batch.map (fun f => f.filename))

/-! ### Raster processing (app.py:186-242, `process_raster`) -/

/-- Truncation toward zero, the rounding used by a C-style float-to-integer
cast: truncated division of the numerator by the denominator. -/
def truncToward0 (q : ℚ) : ℤ :=
  Int.tdiv q.num (q.den : ℤ)

/-- `numpy` `astype(np.uint8)` on one sample: truncate toward zero, then
wrap modulo 2^8. -/
def ratToUInt8 (q : ℚ) : ℕ :=
  ((truncToward0 q) % 256).toNat

/-- app.py:201-206, the single-band contrast stretch: if the observed
maximum equals the observed minimum the array is replaced by zeros,
otherwise each sample is rescaled by `(x - min) / (max - min) * 255`;
either way the result is cast to `uint8`.  Band samples are modelled as
rationals (the `float32` arithmetic is exact at the endpoints the claims
are about). -/
def normalizeBand (band : List ℚ) : List ℕ :=
  let mn := (band.min?).getD 0
  let mx := (band.max?).getD 0
  if mx = mn then band.map (fun _ => 0)
  else band.map (fun x => ratToUInt8 ((x - mn) / (mx - mn) * 255))

/-- An in-memory image: pixel dimensions plus channel sample data. -/
structure RImage where
  width : Nat
  height : Nat
  chans : List (List ℕ)
deriving DecidableEq, Repr

/-- Modelled from the spec: `PIL.Image.resize((500, 500), LANCZOS)` at
app.py:209 is the external imaging primitive.  Its interface contract is
that the returned image has exactly the requested dimensions; the LANCZOS
resampling of the sample data is the `filt` parameter. -/
def pilResize (filt : List (List ℕ) → Nat → Nat → List (List ℕ))
    (img : RImage) (w h : Nat) : RImage :=
  ⟨w, h, filt img.chans w h⟩

/-- An opened raster dataset as `process_raster` reads it: band count is
`bands.length` (`src.count`), each band a flattened sample list, plus the
declared CRS (`src.crs`, possibly absent) and the native bounds
`(left, bottom, right, top)` (`src.bounds`). -/
structure Raster where
  width : Nat
  height : Nat
  bands : List (List ℚ)
  crs : Option String
  bounds : ℚ × ℚ × ℚ × ℚ
deriving DecidableEq, Repr

/-- The successful result of `process_raster` (app.py:229-235): the resized
preview image (the base64/PNG encoding of `data` is an external primitive
and is elided), the transformed bounds `[[south, west], [north, east]]`,
and — recorded for specification purposes — the source CRS that was passed
to `transform_bounds` at app.py:224. -/
structure RasterOut where
  image : RImage
  srcCrsUsed : String
  outBounds : List (List ℚ)
deriving DecidableEq, Repr

/-- app.py:186-242, `process_raster`.  `filt` is the external resampling
filter (see `pilResize`); `tb` is `rasterio.warp.transform_bounds`
(external coordinate transformation), taking the source CRS, destination
CRS and `(left, bottom, right, top)` and returning
`(west, south, east, north)`.  With at least 3 bands the first three are
cast to `uint8` as an RGB composite (app.py:192-196); otherwise band 1 is
contrast-stretched (app.py:198-207; reading band 1 of a zero-band or
zero-size dataset raises, which the enclosing `except` turns into a
failure result, modelled as `Except.error`).  The image is resized to
500x500, and the bounds are transformed from the declared CRS — or from
`"EPSG:32610"` when none is declared (app.py:219-221) — to `"EPSG:4326"`
and reordered to `[[south, west], [north, east]]` (app.py:224-225). -/
def process_raster (filt : List (List ℕ) → Nat → Nat → List (List ℕ))
    (tb : String → String → ℚ × ℚ × ℚ × ℚ → ℚ × ℚ × ℚ × ℚ)
    (r : Raster) : Except String RasterOut :=
  let preimg : Except String RImage :=
    if 3 ≤ r.bands.length then
      .ok ⟨r.width, r.height, (r.bands.take 3).map (fun b => b.map ratToUInt8)⟩
    else
      match r.bands with
      | [] => .error "band index 1 out of range"
      | band :: _ =>
        if band = [] then .error "zero-size array to reduction operation minimum"
        else .ok ⟨r.width, r.height, [normalizeBand band]⟩
  match preimg with
  | .error e => .error e
  | .ok img0 =>
    let image := pilResize filt img0 500 500
    let srcCrs := match r.crs with
      | some c => c
      | none => "EPSG:32610"
    let t := tb srcCrs "EPSG:4326" r.bounds
    .ok ⟨image, srcCrs, [[t.2.1, t.1], [t.2.2.2, t.2.2.1]]⟩

/-! ### Vector geoprocessing (src/tools.py) -/

/-- tools.py:83-84: `unit_multipliers.get(unit, 1)` — the fixed
meters-per-unit table with a silent fallback of 1 for any other unit
string. -/
def unit_multipliers (unit : String) : ℚ :=
  if unit = "Meters" then 1
  else if unit = "Kilometers" then 1000
  else if unit = "Miles" then 160934 / 100
  else 1

/-- tools.py:80-99, `buffer_vector`.  A row is a geometry paired with its
attributes; `bufPrim` is the external geometry engine's
`geometry.buffer(d)` primitive.  The distance is converted to meters via
`unit_multipliers` and a uniform buffer is applied to every row's
geometry, leaving the attributes untouched (tools.py:87-88). -/
def buffer_vector {α β : Type} (bufPrim : α → ℚ → α) (rows : List (α × β))
    (buffer_distance : ℚ) (unit : String) : Except String (List (α × β)) :=
  let distance_in_meters := buffer_distance * unit_multipliers unit
  .ok (rows.map (fun row => (bufPrim row.1 distance_in_meters, row.2)))

/-- A loaded vector layer as `intersect_vectors` sees it: its CRS, its
attribute column names (including the `"geometry"` column), and whether
`gdf.is_empty.any()` holds. -/
structure VLayer where
  crs : String
  columns : List String
  hasEmpty : Bool
deriving DecidableEq, Repr

/-- tools.py:57-58: rename every non-`"geometry"` column of layer `i` to
`f"{col}_{i}"`. -/
def renameLayer (i : Nat) (l : VLayer) : VLayer :=
  { l with columns :=
      l.columns.map (fun col => if col ≠ "geometry" then col ++ "_" ++ toString i else col) }

/-- Modelled from the spec: `gpd.overlay(l, r, how='intersection')`
(tools.py:66) is the external GIS engine's set-intersection overlay.  At
the attribute level, on inputs whose non-geometry column names are
disjoint it keeps every non-geometry column of both inputs plus a single
geometry column; the result carries the left input's CRS. -/
def overlayIntersection (l r : VLayer) : VLayer :=
  ⟨l.crs,
    l.columns.filter (fun c => c ≠ "geometry")
      ++ r.columns.filter (fun c => c ≠ "geometry") ++ ["geometry"],
    false⟩

/-- tools.py:43-78, `intersect_vectors` (the attribute-schema level of it):
fewer than two layers is an immediate failure; otherwise every layer is
reprojected to the first layer's CRS (columns unaffected), every
non-geometry column is renamed with its layer's positional suffix, layers
with empty geometries raise `ValueError` (caught and returned as a
failure), and the layers are folded left with the intersection overlay. -/
def intersect_vectors (layers : List VLayer) : Except String VLayer :=
  if layers.length < 2 then .error "Please select at least two layers."
  else
    match layers with
    | [] => .error "Please select at least two layers."
    | l0 :: _ =>
      let base := l0.crs
      let harmonized := layers.map (fun l => if l.crs ≠ base then { l with crs := base } else l)
      let renamed := harmonized.enum.map (fun p => renameLayer p.1 p.2)
      if renamed.any (fun l => l.hasEmpty) then
        .error "One or more layers contain empty geometries."
      else
        match renamed with
        | [] => .error "Please select at least two layers."
        | h :: t => .ok (t.foldl overlayIntersection h)

/-- The module-level names bound in `src/tools.py` by its import statements
(tools.py:1-11) and top-level definitions: `pandas` is never imported, so
the name `pd` referenced at tools.py:132-133 is unbound and its evaluation
raises `NameError` at call time. -/
def toolsModuleNames : List String :=
  ["gpd", "json", "tempfile", "os", "shutil", "logging", "reduce", "folium",
   "shape", "mapping", "tqdm", "MarkerCluster", "logger", "save_temp_file",
   "clip_vector", "intersect_vectors", "buffer_vector", "near_features"]

/-- A vector layer as `near_features` sees it: CRS identifier, whether that
CRS is geographic (`crs.is_geographic`), point-modelled feature
geometries, and the `FID` column when present. -/
structure NLayer where
  crs : String
  geographic : Bool
  geoms : List (ℚ × ℚ)
  fids : Option (List ℕ)
deriving DecidableEq, Repr

/-- tools.py:120-133, the per-row `find_nearest` closure.  `sidx` is the
external spatial index's `nearest(bounds, num_results=k)` query and `dist`
the engine's exact distance; candidates are paired with their distance,
sorted ascending, and filtered by `max_distance` when given.  Both result
paths then construct `pd.Series`, and `pd` is resolved against the
module's global namespace: since it is not among `toolsModuleNames`, the
call raises `NameError`. -/
def find_nearest (dist : (ℚ × ℚ) → (ℚ × ℚ) → ℚ) (sidx : (ℚ × ℚ) → ℕ → List ℕ)
    (nearGeoms : List (ℚ × ℚ)) (fids : List ℕ) (maxD : Option ℚ) (k : ℕ)
    (row : ℚ × ℚ) : Except String (Option ℕ × Option ℚ) :=
  let idxs := sidx row k
  let cands : List (ℕ × ℚ) := idxs.filterMap (fun i =>
    match nearGeoms.get? i, fids.get? i with
    | some g, some fid => some (fid, dist row g)
    | _, _ => none)
  let sorted := cands.mergeSort (fun a b => decide (a.2 ≤ b.2))
  let surviving : List (ℕ × ℚ) := match maxD with
    | some m => sorted.filter (fun c => decide (c.2 ≤ m))
    | none => sorted
  if "pd" ∈ toolsModuleNames then
    match surviving with
    | c :: _ => .ok (some c.1, some c.2)
    | [] => .ok (none, none)
  else .error "NameError: name pd is not defined"

/-- tools.py:101-146, `near_features`: a CRS mismatch raises `ValueError`
(caught by the enclosing `except` and returned as a failure, modelled as
`Except.error`); a geographic CRS sends both layers through the external
reprojection to EPSG:3857 (`reproj`); rows of the near layer lacking a
`FID` get `range(1, len + 1)`; then `find_nearest` is applied to every
input row, the first exception propagating to the handler. -/
def near_features (reproj : (ℚ × ℚ) → ℚ × ℚ) (dist : (ℚ × ℚ) → (ℚ × ℚ) → ℚ)
    (sidx : (ℚ × ℚ) → ℕ → List ℕ) (input nearL : NLayer) (maxD : Option ℚ)
    (k : ℕ) : Except String (List ((ℚ × ℚ) × Option ℕ × Option ℚ)) :=
  if input.crs ≠ nearL.crs then .error "CRS of input and near layers do not match!"
  else
    let inputG := if input.geographic then input.geoms.map reproj else input.geoms
    let nearG := if input.geographic then nearL.geoms.map reproj else nearL.geoms
    let fids := match nearL.fids with
      | some fs => fs
      | none => List.range' 1 nearL.geoms.length
    inputG.mapM (fun row =>
      (find_nearest dist sidx nearG fids maxD k row).map (fun nr => (row, nr)))

/-! ### Concrete instantiations of the external-collaborator parameters,
used to evaluate the model at specific inputs. -/

/-- A concrete stand-in for `process_shapefile`: succeeds, named after its
argument (as every branch of the source function is). -/
def exProcShp : String → Entry := fun s => ⟨true, s, none⟩

/-- A concrete stand-in for `process_raster` at the orchestration level. -/
def exProcRas : String → Entry := fun s => ⟨true, s, none⟩

/-- A concrete resampling filter (identity on the sample data). -/
def exFilt : List (List ℕ) → Nat → Nat → List (List ℕ) := fun c _ _ => c

/-- A concrete coordinate transform that tags which source CRS it was
called with: it zeroes the bounds when the source is the geographic
reference CRS and passes them through otherwise, so the output bounds
reveal the source CRS the code supplied. -/
def exTb : String → String → ℚ × ℚ × ℚ × ℚ → ℚ × ℚ × ℚ × ℚ :=
  fun src _ b => if src = "EPSG:4326" then (0, 0, 0, 0) else b

/-- Whether an uploaded name has one of the extensions the upload pipeline
recognizes anywhere (`.shp`/`.shx`/`.dbf`/`.prj` shapefile components,
`.tif`/`.tiff` rasters, `.zip` archives), case-insensitively. -/
def supportedExt (s : String) : Bool :=
  strEndsWith (strToLower s) ".shp" || strEndsWith (strToLower s) ".shx" ||
  strEndsWith (strToLower s) ".dbf" || strEndsWith (strToLower s) ".prj" ||
  strEndsWith (strToLower s) ".tif" || strEndsWith (strToLower s) ".tiff" ||
  strEndsWith (strToLower s) ".zip"

/-! ### Helper lemmas -/

theorem findSome_first {α β : Type} (p : α → Option β) (l : List α)
    (h : ∃ a ∈ l, (p a).isSome) :
    ∃ a ∈ l, ∃ b, p a = some b ∧ l.findSome? p = some b := by
  induction l with
  | nil => simp at h
  | cons hd tl ih =>
    cases hp : p hd with
    | some b =>
      exact ⟨hd, List.mem_cons_self hd tl, b, hp, by simp [List.findSome?_cons, hp]⟩
    | none =>
      obtain ⟨a, ha, hsome⟩ := h
      rcases List.mem_cons.mp ha with rfl | hmem
      · rw [hp] at hsome; simp at hsome
      · obtain ⟨a2, ha2, b, hb, hfind⟩ := ih ⟨a, hmem, hsome⟩
        exact ⟨a2, List.mem_cons_of_mem _ ha2, b, hb, by simp [List.findSome?_cons, hp, hfind]⟩

theorem zip_map_snd {α β : Type} (f : α → β) (l : List α) :
    ∀ p ∈ l.zip (l.map f), p.2 = f p.1 := by
  induction l with
  | nil => simp
  | cons a t ih =>
    intro p hp
    rcases List.mem_cons.mp hp with rfl | hp2
    · rfl
    · exact ih p hp2

theorem strEndsWith_append (x t : String) : strEndsWith (x ++ t) t = true := by
  show t.data.isSuffixOf (x ++ t).data = true
  rw [String.data_append]
  exact List.isSuffixOf_iff_suffix.mpr (List.suffix_append _ _)

theorem contains_middle_ne (L1 L2 : List String) (x e : String) (hne : ¬ x = e) :
    (L1 ++ x :: L2).contains e = (L1 ++ L2).contains e := by
  apply Bool.eq_iff_iff.mpr
  constructor
  · intro h
    have hm := List.mem_of_elem_eq_true h
    apply List.elem_eq_true_of_mem
    rcases List.mem_append.mp hm with h1 | h1
    · exact List.mem_append.mpr (Or.inl h1)
    · rcases List.mem_cons.mp h1 with heq | h2
      · exact absurd heq.symm hne
      · exact List.mem_append.mpr (Or.inr h2)
  · intro h
    have hm := List.mem_of_elem_eq_true h
    apply List.elem_eq_true_of_mem
    rcases List.mem_append.mp hm with h1 | h1
    · exact List.mem_append.mpr (Or.inl h1)
    · exact List.mem_append.mpr (Or.inr (List.mem_cons_of_mem _ h1))

/-- The sidecar pre-check never looks at a name that ends in neither
`.shp` nor `.shx` nor `.dbf`: inserting such a (lowercased) name anywhere
into the lowered upload list leaves its outcome unchanged. -/
theorem sidecarFailure_insert_unsupported (L1 L2 : List String) (lf : String)
    (h1 : strEndsWith lf ".shp" = false) (h2 : strEndsWith lf ".shx" = false)
    (h3 : strEndsWith lf ".dbf" = false) :
    sidecarFailure (L1 ++ lf :: L2) = sidecarFailure (L1 ++ L2) := by
  have hcont : ∀ e : String,
      strEndsWith e ".shx" = true ∨ strEndsWith e ".dbf" = true →
      (L1 ++ lf :: L2).contains e = (L1 ++ L2).contains e := by
    intro e he
    apply contains_middle_ne
    intro hx
    subst hx
    rcases he with he | he
    · exact Bool.noConfusion (h2.symm.trans he)
    · exact Bool.noConfusion (h3.symm.trans he)
  have hmiss : ∀ shp : String,
      missingFor (L1 ++ lf :: L2) shp = missingFor (L1 ++ L2) shp := by
    intro shp
    have e1 := hcont (splitextBase shp ++ ".shx") (Or.inl (strEndsWith_append _ _))
    have e2 := hcont (splitextBase shp ++ ".dbf") (Or.inr (strEndsWith_append _ _))
    rw [missingFor, missingFor]
    simp only [List.filter_cons, List.filter_nil, e1, e2]
  have hcheck : sidecarCheckEntry (L1 ++ lf :: L2) = sidecarCheckEntry (L1 ++ L2) := by
    funext shp
    rw [sidecarCheckEntry, sidecarCheckEntry, hmiss shp]
  rw [sidecarFailure, sidecarFailure, hcheck]
  congr 1
  simp [List.filter_append, List.filter_cons, h1]

/-- Simultaneously extending two scratch directories with the same archive
members preserves the two facts the processing loop depends on: their
`.shp`-name sublists agree, and they hold the same names except possibly
the (non-shapefile) name `fn`. -/
theorem addMembers_invariant (fn : String)
    (hfn : strEndsWith (strToLower fn) ".shp" = false) (ms : List String) :
    ∀ (t t' : List String),
      t.filter (fun s => strEndsWith (strToLower s) ".shp")
        = t'.filter (fun s => strEndsWith (strToLower s) ".shp") →
      (∀ m, m ≠ fn → (m ∈ t ↔ m ∈ t')) →
      (addMembers t ms).filter (fun s => strEndsWith (strToLower s) ".shp")
        = (addMembers t' ms).filter (fun s => strEndsWith (strToLower s) ".shp")
      ∧ (∀ m, m ≠ fn → (m ∈ addMembers t ms ↔ m ∈ addMembers t' ms)) := by
  induction ms with
  | nil => intro t t' hfil hmem; exact ⟨hfil, hmem⟩
  | cons m ms ih =>
    intro t t' hfil hmem
    have hstep : ∀ u : List String,
        addMembers u (m :: ms) = addMembers (if m ∈ u then u else u ++ [m]) ms :=
      fun u => rfl
    rw [hstep t, hstep t']
    apply ih
    · by_cases hm : m = fn
      · subst hm
        by_cases hin1 : m ∈ t <;> by_cases hin2 : m ∈ t' <;>
          simp [hin1, hin2, List.filter_append, hfil, hfn]
      · have hmm := hmem m hm
        by_cases hin1 : m ∈ t
        · have hin2 : m ∈ t' := hmm.mp hin1
          simp [hin1, hin2, hfil]
        · have hin2 : m ∉ t' := fun hh => hin1 (hmm.mpr hh)
          simp [hin1, hin2, List.filter_append, hfil]
    · intro q hq
      by_cases hm : m = fn
      · subst hm
        by_cases hin1 : m ∈ t <;> by_cases hin2 : m ∈ t' <;>
          simp [hin1, hin2, List.mem_append, hmem q hq, hq]
      · have hmm := hmem m hm
        by_cases hin1 : m ∈ t
        · have hin2 : m ∈ t' := hmm.mp hin1
          simp [hin1, hin2, hmem q hq]
        · have hin2 : m ∉ t' := fun hh => hin1 (hmm.mpr hh)
          simp [hin1, hin2, List.mem_append, hmem q hq]

/-- The processing loop reads the scratch directory only through its
`.shp`-name sublist (the zip branch's filter) and through membership tests
during extraction dedup, so two directories related as in
`addMembers_invariant` produce the same results on every file list. -/
theorem upload_loop_tdir_congr (procShp procRas : String → Entry) (fn : String)
    (hfn : strEndsWith (strToLower fn) ".shp" = false) :
    ∀ (fs : List UFile) (t t' : List String),
      t.filter (fun s => strEndsWith (strToLower s) ".shp")
        = t'.filter (fun s => strEndsWith (strToLower s) ".shp") →
      (∀ m, m ≠ fn → (m ∈ t ↔ m ∈ t')) →
      upload_loop procShp procRas fs t = upload_loop procShp procRas fs t' := by
  intro fs
  induction fs with
  | nil => intro t t' _ _; rfl
  | cons g rest ih =>
    intro t t' hfil hmem
    rw [upload_loop, upload_loop]
    by_cases hz : strEndsWith (strToLower g.filename) ".zip" = true
    · simp only [hz, if_true]
      rw [extract_zip, extract_zip]
      by_cases ho : g.zipOpens = true
      · simp only [ho, if_true]
        obtain ⟨hfil2, hmem2⟩ :=
          addMembers_invariant fn hfn g.zipMembers t t' hfil hmem
        rw [ih (addMembers t g.zipMembers) (addMembers t' g.zipMembers) hfil2 hmem2, hfil2]
      · rw [if_neg ho, if_neg ho]
    · rw [if_neg hz, if_neg hz, ih t t' hfil hmem]

/-- Dropping one file with no recognized extension from the middle of the
processing list (while its saved name may or may not sit in the scratch
directory) leaves the loop's result list unchanged. -/
theorem upload_loop_drop_unsupported (procShp procRas : String → Entry) (f : UFile)
    (hshp : strEndsWith (strToLower f.filename) ".shp" = false)
    (htif : strEndsWith (strToLower f.filename) ".tif" = false)
    (htiff : strEndsWith (strToLower f.filename) ".tiff" = false)
    (hzip : strEndsWith (strToLower f.filename) ".zip" = false) :
    ∀ (fs1 fs2 : List UFile) (t t' : List String),
      t.filter (fun s => strEndsWith (strToLower s) ".shp")
        = t'.filter (fun s => strEndsWith (strToLower s) ".shp") →
      (∀ m, m ≠ f.filename → (m ∈ t ↔ m ∈ t')) →
      upload_loop procShp procRas (fs1 ++ f :: fs2) t
        = upload_loop procShp procRas (fs1 ++ fs2) t' := by
  intro fs1
  induction fs1 with
  | nil =>
    intro fs2 t t' hfil hmem
    rw [List.nil_append, List.nil_append, upload_loop]
    simp only [hzip, hshp, htif, htiff, Bool.false_eq_true, Bool.or_self, if_false]
    exact upload_loop_tdir_congr procShp procRas f.filename hshp fs2 t t' hfil hmem
  | cons g rest ih =>
    intro fs2 t t' hfil hmem
    rw [List.cons_append, List.cons_append, upload_loop, upload_loop]
    by_cases hz : strEndsWith (strToLower g.filename) ".zip" = true
    · simp only [hz, if_true]
      rw [extract_zip, extract_zip]
      by_cases ho : g.zipOpens = true
      · simp only [ho, if_true]
        obtain ⟨hfil2, hmem2⟩ :=
          addMembers_invariant f.filename hshp g.zipMembers t t' hfil hmem
        rw [ih fs2 (addMembers t g.zipMembers) (addMembers t' g.zipMembers) hfil2 hmem2, hfil2]
      · rw [if_neg ho, if_neg ho]
    · rw [if_neg hz, if_neg hz, ih fs2 t t' hfil hmem]

/-! ### The claims -/

/-- C2: for every upload batch containing a top-level file ending in `.shp`
whose matching `.shx` or `.dbf` filename is missing from the batch (the
check at app.py:252-264 sees only the uploaded names, never archive
members), the response is the single failure entry produced for the first
such shapefile, naming its missing extensions, and no file in the batch is
processed (the result list holds nothing else). -/
theorem C2_sidecar_batch_failure (procShp procRas : String → Entry)
    (batch : List UFile) (shp : String)
    (hmem : shp ∈ batch.map (fun f => strToLower f.filename))
    (hshp : strEndsWith shp ".shp" = true)
    (hmiss : missingFor (batch.map (fun f => strToLower f.filename)) shp ≠ []) :
    ∃ shp2,
      shp2 ∈ batch.map (fun f => strToLower f.filename) ∧
      strEndsWith shp2 ".shp" = true ∧
      missingFor (batch.map (fun f => strToLower f.filename)) shp2 ≠ [] ∧
      upload_files procShp procRas batch =
        .ok [⟨false, shp2,
          some (sidecarError (missingFor (batch.map (fun f => strToLower f.filename)) shp2))⟩] := by
  set lowered := batch.map (fun f => strToLower f.filename) with hl
  have hx : ∃ a ∈ lowered.filter (fun s => strEndsWith s ".shp"),
      ((sidecarCheckEntry lowered) a).isSome := by
    refine ⟨shp, List.mem_filter.mpr ⟨hmem, hshp⟩, ?_⟩
    simp [sidecarCheckEntry, hmiss]
  obtain ⟨a, ha, b, hb, hfind⟩ := findSome_first _ _ hx
  have hamem := (List.mem_filter.mp ha).1
  have haend := (List.mem_filter.mp ha).2
  have hamiss : missingFor lowered a ≠ [] := by
    intro hnil
    rw [sidecarCheckEntry, if_pos hnil] at hb
    exact Option.noConfusion hb
  have hbval : b = ⟨false, a, some (sidecarError (missingFor lowered a))⟩ := by
    rw [sidecarCheckEntry, if_neg hamiss] at hb
    exact (Option.some.inj hb).symm
  have hside : sidecarFailure lowered = some b := hfind
  refine ⟨a, hamem, haend, hamiss, ?_⟩
  rw [upload_files, ← hl, hside, hbval]

/-- Witness for C2 at the concrete batch `["Roads.shp"]`: both sidecars are
missing and the response is the single failure entry. -/
theorem C2_sidecar_batch_failure_witness :
    ∃ shp2,
      shp2 ∈ ([(⟨"Roads.shp", true, []⟩ : UFile)].map (fun f => strToLower f.filename)) ∧
      strEndsWith shp2 ".shp" = true ∧
      missingFor ([(⟨"Roads.shp", true, []⟩ : UFile)].map (fun f => strToLower f.filename)) shp2 ≠ [] ∧
      upload_files exProcShp exProcRas [⟨"Roads.shp", true, []⟩] =
        .ok [⟨false, shp2,
          some (sidecarError
            (missingFor ([(⟨"Roads.shp", true, []⟩ : UFile)].map (fun f => strToLower f.filename)) shp2))⟩] :=
  C2_sidecar_batch_failure exProcShp exProcRas [⟨"Roads.shp", true, []⟩] "roads.shp"
    (by decide) (by decide) (by decide)

/-- C3 counterexample: a batch holding the single unsupported file
`notes.txt` yields an empty result list — no per-file entry with
`success = false` and a descriptive reason is produced for it; the file is
silently dropped (app.py:290-292 logs and `continue`s). -/
theorem C3_counterexample :
    upload_files exProcShp exProcRas [⟨"notes.txt", true, []⟩] = .ok [] := by
  rfl

/-- C3 amended: every uploaded file whose extension is not one of the
supported types is silently skipped and contributes no entry to the result
list, in any batch: removing the unsupported file from wherever it sits in
the batch leaves the upload response unchanged. -/
theorem C3_amended_silent_skip (procShp procRas : String → Entry)
    (b1 b2 : List UFile) (f : UFile)
    (hf : supportedExt f.filename = false) :
    upload_files procShp procRas (b1 ++ f :: b2)
      = upload_files procShp procRas (b1 ++ b2) := by
  have hparts := hf
  simp only [supportedExt, Bool.or_eq_false_iff] at hparts
  obtain ⟨⟨⟨⟨⟨⟨hshp, hshx⟩, hdbf⟩, _hprj⟩, htif⟩, htiff⟩, hzip⟩ := hparts
  have hmap1 : (b1 ++ f :: b2).map (fun g => strToLower g.filename)
      = b1.map (fun g => strToLower g.filename)
        ++ strToLower f.filename :: b2.map (fun g => strToLower g.filename) := by
    simp
  have hmap2 : (b1 ++ b2).map (fun g => strToLower g.filename)
      = b1.map (fun g => strToLower g.filename) ++ b2.map (fun g => strToLower g.filename) := by
    simp
  have hside : sidecarFailure ((b1 ++ f :: b2).map (fun g => strToLower g.filename))
      = sidecarFailure ((b1 ++ b2).map (fun g => strToLower g.filename)) := by
    rw [hmap1, hmap2]
    exact sidecarFailure_insert_unsupported _ _ _ hshp hshx hdbf
  rw [upload_files, upload_files, hside]
  cases hsf : sidecarFailure ((b1 ++ b2).map (fun g => strToLower g.filename)) with
  | some e => rfl
  | none =>
    have hmapf1 : (b1 ++ f :: b2).map (fun g => g.filename)
        = b1.map (fun g => g.filename) ++ f.filename :: b2.map (fun g => g.filename) := by
      simp
    have hmapf2 : (b1 ++ b2).map (fun g => g.filename)
        = b1.map (fun g => g.filename) ++ b2.map (fun g => g.filename) := by
      simp
    rw [hmapf1, hmapf2]
    apply upload_loop_drop_unsupported procShp procRas f hshp htif htiff hzip
    · simp [List.filter_append, List.filter_cons, hshp]
    · intro m hm
      simp [List.mem_append, List.mem_cons, hm]

/-- Witness for C3's amended claim at a concrete mixed batch: dropping the
unsupported `notes.doc` leaves the raster sibling's response unchanged. -/
theorem C3_amended_silent_skip_witness :
    upload_files exProcShp exProcRas [⟨"img.tif", true, []⟩, ⟨"notes.doc", true, []⟩]
      = upload_files exProcShp exProcRas [⟨"img.tif", true, []⟩] :=
  C3_amended_silent_skip exProcShp exProcRas [⟨"img.tif", true, []⟩] []
    ⟨"notes.doc", true, []⟩ (by decide)

/-- C4 counterexample: a batch with a corrupt archive (`data.zip`, not
openable as a zip) and a sibling raster (`img.tif`).  The claim demands a
`{success := false, name, error}` entry for the archive and a
`ProcessingResult` for the sibling; instead the `BadZipFile` raised inside
`extract_zip` (app.py:52) escapes `upload_files` uncaught, so no result
list is produced at all. -/
theorem C4_counterexample :
    upload_files exProcShp exProcRas [⟨"data.zip", false, []⟩, ⟨"img.tif", true, []⟩] =
      .error "BadZipFile: data.zip" := by
  rfl

/-- C4 amended: the failure of an unopenable archive is not isolated — for
every batch that passes the sidecar pre-check and contains an archive that
cannot be opened as a zip, the whole request aborts with an uncaught
exception and no result list (so sibling files produce no
`ProcessingResult` either). -/
theorem C4_amended_zip_aborts_batch (procShp procRas : String → Entry)
    (batch : List UFile)
    (hside : sidecarFailure (batch.map (fun f => strToLower f.filename)) = none)
    (hbad : ∃ f ∈ batch, strEndsWith (strToLower f.filename) ".zip" = true ∧ f.zipOpens = false) :
    ∃ msg, upload_files procShp procRas batch = .error msg := by
  have hloop : ∀ (fs : List UFile),
      (∃ f ∈ fs, strEndsWith (strToLower f.filename) ".zip" = true ∧ f.zipOpens = false) →
      ∀ (tdir : List String), ∃ msg, upload_loop procShp procRas fs tdir = .error msg := by
    intro fs
    induction fs with
    | nil => intro h tdir; simp at h
    | cons g rest ih =>
      intro h tdir
      by_cases hz : strEndsWith (strToLower g.filename) ".zip" = true
      · by_cases ho : g.zipOpens = true
        · have hrest : ∃ f ∈ rest,
              strEndsWith (strToLower f.filename) ".zip" = true ∧ f.zipOpens = false := by
            obtain ⟨f, hf, hfz, hfo⟩ := h
            rcases List.mem_cons.mp hf with rfl | hmem
            · rw [ho] at hfo; exact absurd hfo (by simp)
            · exact ⟨f, hmem, hfz, hfo⟩
          obtain ⟨msg, hmsg⟩ := ih hrest (addMembers tdir g.zipMembers)
          refine ⟨msg, ?_⟩
          rw [upload_loop]
          simp only [hz, if_true, extract_zip, ho, hmsg]
        · refine ⟨"BadZipFile: " ++ g.filename, ?_⟩
          rw [upload_loop]
          simp only [hz, if_true]
          rw [extract_zip, if_neg ho]
      · have hrest : ∃ f ∈ rest,
            strEndsWith (strToLower f.filename) ".zip" = true ∧ f.zipOpens = false := by
          obtain ⟨f, hf, hfz, hfo⟩ := h
          rcases List.mem_cons.mp hf with rfl | hmem
          · exact absurd hfz hz
          · exact ⟨f, hmem, hfz, hfo⟩
        obtain ⟨msg, hmsg⟩ := ih hrest tdir
        refine ⟨msg, ?_⟩
        rw [upload_loop]
        simp only [Bool.not_eq_true] at hz
        simp only [hz, Bool.false_eq_true, if_false]
        by_cases hs : strEndsWith (strToLower g.filename) ".shp" = true
        · simp only [hs, if_true, hmsg]
        · simp only [Bool.not_eq_true] at hs
          simp only [hs, Bool.false_eq_true, if_false]
          by_cases ht : (strEndsWith (strToLower g.filename) ".tif"
              || strEndsWith (strToLower g.filename) ".tiff") = true
          · simp only [ht, if_true, hmsg]
          · simp only [Bool.not_eq_true] at ht
            simp only [ht, Bool.false_eq_true, if_false, hmsg]
  obtain ⟨msg, hmsg⟩ := hloop batch hbad (batch.map (fun f => f.filename))
  refine ⟨msg, ?_⟩
  rw [upload_files, hside]
  exact hmsg

/-- Witness for C4's amended claim: a healthy raster followed by a corrupt
archive aborts the whole request. -/
theorem C4_amended_zip_aborts_batch_witness :
    ∃ msg, upload_files exProcShp exProcRas
      [⟨"ok.tif", true, []⟩, ⟨"broken.zip", false, []⟩] = .error msg :=
  C4_amended_zip_aborts_batch exProcShp exProcRas
    [⟨"ok.tif", true, []⟩, ⟨"broken.zip", false, []⟩] (by rfl)
    ⟨⟨"broken.zip", false, []⟩, by decide, by decide, rfl⟩

/-- C1 counterexample: a raster with no declared CRS whose bounds
`(left := 10, bottom := 45, right := 12, top := 47)` lie entirely within
[-180,180] x [-90,90].  The claim says CRS resolution classifies it as the
geographic reference CRS (EPSG:4326) and transforms the bounds from it;
instead app.py:219-221 unconditionally assumes `"EPSG:32610"`, which is
what reaches `transform_bounds` (the tagging transform `exTb` would have
zeroed the bounds had the source CRS been EPSG:4326). -/
theorem C1_counterexample :
    process_raster exFilt exTb ⟨1, 1, [[5]], none, (10, 45, 12, 47)⟩ =
      .ok ⟨⟨500, 500, [[0]]⟩, "EPSG:32610", [[45, 10], [47, 12]]⟩ ∧
    "EPSG:32610" ≠ "EPSG:4326" := by
  exact ⟨by rfl, by decide⟩

/-- C1 amended: for every raster whose declared CRS is absent — whatever
its bounds — CRS resolution yields the fixed fallback `"EPSG:32610"`
(no bounds heuristic exists in the code), and that identifier is the
source CRS given to `transform_bounds` for the reported bounds. -/
theorem C1_amended_fixed_fallback
    (filt : List (List ℕ) → Nat → Nat → List (List ℕ))
    (tb : String → String → ℚ × ℚ × ℚ × ℚ → ℚ × ℚ × ℚ × ℚ)
    (r : Raster) (out : RasterOut) (hcrs : r.crs = none)
    (h : process_raster filt tb r = .ok out) :
    out.srcCrsUsed = "EPSG:32610" ∧
    out.outBounds =
      [[(tb "EPSG:32610" "EPSG:4326" r.bounds).2.1, (tb "EPSG:32610" "EPSG:4326" r.bounds).1],
       [(tb "EPSG:32610" "EPSG:4326" r.bounds).2.2.2,
        (tb "EPSG:32610" "EPSG:4326" r.bounds).2.2.1]] := by
  rw [process_raster, hcrs] at h
  split at h
  · exact absurd h (by simp)
  · rw [Except.ok.injEq] at h
    subst h
    exact ⟨rfl, rfl⟩

/-- Witness for C1's amended claim at a concrete CRS-less raster. -/
theorem C1_amended_fixed_fallback_witness :
    (⟨⟨500, 500, [[0]]⟩, "EPSG:32610", [[0, 0], [10, 10]]⟩ : RasterOut).srcCrsUsed
        = "EPSG:32610" ∧
    (⟨⟨500, 500, [[0]]⟩, "EPSG:32610", [[0, 0], [10, 10]]⟩ : RasterOut).outBounds =
      [[(exTb "EPSG:32610" "EPSG:4326" ((0 : ℚ), (0 : ℚ), (10 : ℚ), (10 : ℚ))).2.1,
        (exTb "EPSG:32610" "EPSG:4326" ((0 : ℚ), (0 : ℚ), (10 : ℚ), (10 : ℚ))).1],
       [(exTb "EPSG:32610" "EPSG:4326" ((0 : ℚ), (0 : ℚ), (10 : ℚ), (10 : ℚ))).2.2.2,
        (exTb "EPSG:32610" "EPSG:4326" ((0 : ℚ), (0 : ℚ), (10 : ℚ), (10 : ℚ))).2.2.1]] :=
  C1_amended_fixed_fallback exFilt exTb ⟨1, 1, [[7]], none, (0, 0, 10, 10)⟩
    ⟨⟨500, 500, [[0]]⟩, "EPSG:32610", [[0, 0], [10, 10]]⟩ rfl (by rfl)

/-- C6: the single-band contrast stretch of app.py:201-206 maps every
sample equal to the observed minimum to 0 and every sample equal to the
observed maximum to 255; when minimum equals maximum (uniform band) the
output is all zeros, the guard at app.py:202 preventing any division by
zero.  (`band.zip (normalizeBand band)` pairs each input sample with its
output sample positionally.) -/
theorem C6_contrast_stretch (band : List ℚ) (_hne : band ≠ []) :
    ((band.min?).getD 0 = (band.max?).getD 0 →
      normalizeBand band = List.replicate band.length 0) ∧
    ((band.min?).getD 0 ≠ (band.max?).getD 0 →
      ∀ p ∈ band.zip (normalizeBand band),
        (p.1 = (band.min?).getD 0 → p.2 = 0) ∧
        (p.1 = (band.max?).getD 0 → p.2 = 255)) := by
  constructor
  · intro hmm
    rw [normalizeBand, if_pos hmm.symm]
    exact List.map_const' band 0
  · intro hneq p hp
    have hnb : normalizeBand band =
        band.map (fun x =>
          ratToUInt8 ((x - (band.min?).getD 0) /
            ((band.max?).getD 0 - (band.min?).getD 0) * 255)) := by
      rw [normalizeBand, if_neg (fun hh => hneq hh.symm)]
    rw [hnb] at hp
    have hval := zip_map_snd _ band p hp
    constructor
    · intro h1
      rw [hval, h1]
      have hz : ((band.min?).getD 0 - (band.min?).getD 0) /
          ((band.max?).getD 0 - (band.min?).getD 0) * 255 = 0 := by
        rw [sub_self, zero_div, zero_mul]
      rw [hz]
      rfl
    · intro h1
      rw [hval, h1]
      have hd : (band.max?).getD 0 - (band.min?).getD 0 ≠ 0 :=
        sub_ne_zero.mpr (Ne.symm hneq)
      have hz : (((band.max?).getD 0 - (band.min?).getD 0)) /
          ((band.max?).getD 0 - (band.min?).getD 0) * 255 = 255 := by
        rw [div_self hd, one_mul]
      rw [hz]
      rfl

/-- Witness for C6 at the uniform band `[5, 5, 5]`: the normalized output
is all zeros. -/
theorem C6_contrast_stretch_witness :
    normalizeBand [(5 : ℚ), 5, 5] = List.replicate 3 0 :=
  (C6_contrast_stretch [(5 : ℚ), 5, 5] (by decide)).1 (by decide)

/-- C9: every raster input that `process_raster` handles successfully
yields a preview image of exactly 500 x 500 pixels (the unconditional
resize at app.py:209), independent of the source dimensions or aspect
ratio. -/
theorem C9_preview_resolution
    (filt : List (List ℕ) → Nat → Nat → List (List ℕ))
    (tb : String → String → ℚ × ℚ × ℚ × ℚ → ℚ × ℚ × ℚ × ℚ)
    (r : Raster) (out : RasterOut)
    (h : process_raster filt tb r = .ok out) :
    out.image.width = 500 ∧ out.image.height = 500 := by
  rw [process_raster] at h
  split at h
  · exact absurd h (by simp)
  · rw [Except.ok.injEq] at h
    subst h
    exact ⟨rfl, rfl⟩

/-- Witness for C9 at a concrete 1 x 1 three-band raster: the output image
is 500 x 500. -/
theorem C9_preview_resolution_witness :
    (⟨⟨500, 500, [[3], [4], [5]]⟩, "EPSG:4326", [[0, 0], [0, 0]]⟩ : RasterOut).image.width = 500 ∧
    (⟨⟨500, 500, [[3], [4], [5]]⟩, "EPSG:4326", [[0, 0], [0, 0]]⟩ : RasterOut).image.height = 500 :=
  C9_preview_resolution exFilt exTb ⟨1, 1, [[3], [4], [5]], some "EPSG:4326", (1, 2, 3, 4)⟩
    ⟨⟨500, 500, [[3], [4], [5]]⟩, "EPSG:4326", [[0, 0], [0, 0]]⟩ (by rfl)

/-- C5 (code bug): for every pair of layers sharing a CRS and every
nonempty input layer, `near_features` does not succeed at all — let alone
with null nearest-match fields.  `tools.py` never imports `pandas`, so the
`pd.Series` constructions at tools.py:132-133 (reached for every input
row, whether or not any candidate survives `max_distance`) raise
`NameError`, which the handler at tools.py:144-146 converts into a
`success = false` result. -/
theorem C5_near_namerror (reproj : (ℚ × ℚ) → ℚ × ℚ)
    (dist : (ℚ × ℚ) → (ℚ × ℚ) → ℚ) (sidx : (ℚ × ℚ) → ℕ → List ℕ)
    (input nearL : NLayer) (maxD : Option ℚ) (k : ℕ)
    (hcrs : input.crs = nearL.crs) (hne : input.geoms ≠ []) :
    near_features reproj dist sidx input nearL maxD k =
      .error "NameError: name pd is not defined" := by
  have hfn : ∀ (nearG : List (ℚ × ℚ)) (fids : List ℕ) (row : ℚ × ℚ),
      find_nearest dist sidx nearG fids maxD k row =
        .error "NameError: name pd is not defined" := by
    intro nearG fids row
    rfl
  rw [near_features, if_neg (by simp [hcrs])]
  obtain ⟨g0, gs, hgs⟩ := List.exists_cons_of_ne_nil hne
  rw [hgs]
  by_cases hg : input.geographic = true
  · simp only [hg, if_true, hfn]
    rfl
  · simp only [Bool.not_eq_true] at hg
    simp only [hg, Bool.false_eq_true, if_false, hfn]
    rfl

/-- Witness for C5: one input point at the origin, one near point at
distance 10, `max_distance = 5` — the operation fails with the `NameError`
instead of returning null nearest-match fields. -/
theorem C5_near_namerror_witness :
    near_features id (fun a b => |a.1 - b.1| + |a.2 - b.2|) (fun _ _ => [0])
      ⟨"EPSG:32633", false, [(0, 0)], none⟩ ⟨"EPSG:32633", false, [(10, 0)], none⟩
      (some 5) 1 = .error "NameError: name pd is not defined" :=
  C5_near_namerror id (fun a b => |a.1 - b.1| + |a.2 - b.2|) (fun _ _ => [0])
    ⟨"EPSG:32633", false, [(0, 0)], none⟩ ⟨"EPSG:32633", false, [(10, 0)], none⟩
    (some 5) 1 rfl (by decide)

/-- Evaluation of `intersect_vectors` on a two-layer list: the fold
degenerates to a single overlay of the two renamed (and CRS-harmonized)
layers. -/
theorem intersect_two_layers (A B : VLayer)
    (heA : A.hasEmpty = false) (heB : B.hasEmpty = false) :
    intersect_vectors [A, B] =
      .ok (overlayIntersection (renameLayer 0 A)
        (renameLayer 1 (if B.crs ≠ A.crs then { B with crs := A.crs } else B))) := by
  by_cases hBC : B.crs = A.crs
  · simp [intersect_vectors, hBC, heA, heB, List.enum, List.enumFrom, renameLayer]
  · simp [intersect_vectors, hBC, heA, heB, List.enum, List.enumFrom, renameLayer]

/-- C7: `intersect_vectors` on two layers that share the non-geometry
column name `"id"` (and contain no empty geometries) succeeds, and thanks
to the per-layer positional renaming at tools.py:57-58 performed before
the overlay, the output schema contains both `id_0` and `id_1`. -/
theorem C7_intersect_rename (A B : VLayer)
    (hA : "id" ∈ A.columns) (hB : "id" ∈ B.columns)
    (heA : A.hasEmpty = false) (heB : B.hasEmpty = false) :
    ∃ out, intersect_vectors [A, B] = .ok out ∧
      "id_0" ∈ out.columns ∧ "id_1" ∈ out.columns := by
  refine ⟨_, intersect_two_layers A B heA heB, ?_, ?_⟩
  · show "id_0" ∈ ((renameLayer 0 A).columns.filter (fun c => c ≠ "geometry") ++
      (renameLayer 1 (if B.crs ≠ A.crs then { B with crs := A.crs } else B)).columns.filter
        (fun c => c ≠ "geometry") ++ ["geometry"])
    refine List.mem_append_left _ (List.mem_append_left _ ?_)
    refine List.mem_filter.mpr ⟨?_, by decide⟩
    show "id_0" ∈ A.columns.map
      (fun col => if col ≠ "geometry" then col ++ "_" ++ toString 0 else col)
    exact List.mem_map.mpr ⟨"id", hA, by decide⟩
  · show "id_1" ∈ ((renameLayer 0 A).columns.filter (fun c => c ≠ "geometry") ++
      (renameLayer 1 (if B.crs ≠ A.crs then { B with crs := A.crs } else B)).columns.filter
        (fun c => c ≠ "geometry") ++ ["geometry"])
    refine List.mem_append_left _ (List.mem_append_right _ ?_)
    refine List.mem_filter.mpr ⟨?_, by decide⟩
    have hBc : (if B.crs ≠ A.crs then { B with crs := A.crs } else B).columns = B.columns := by
      split <;> rfl
    show "id_1" ∈ (if B.crs ≠ A.crs then { B with crs := A.crs } else B).columns.map
      (fun col => if col ≠ "geometry" then col ++ "_" ++ toString 1 else col)
    rw [hBc]
    exact List.mem_map.mpr ⟨"id", hB, by decide⟩

/-- Witness for C7 at two concrete layers both carrying an `"id"`
column. -/
theorem C7_intersect_rename_witness :
    ∃ out, intersect_vectors [⟨"EPSG:4326", ["id", "geometry"], false⟩,
      ⟨"EPSG:4326", ["id", "geometry"], false⟩] = .ok out ∧
      "id_0" ∈ out.columns ∧ "id_1" ∈ out.columns :=
  C7_intersect_rename ⟨"EPSG:4326", ["id", "geometry"], false⟩
    ⟨"EPSG:4326", ["id", "geometry"], false⟩ (by decide) (by decide) rfl rfl

/-- C8: buffering any layer with `distance = 1, unit = "Kilometers"` gives
the same result as `distance = 1000, unit = "Meters"`: both convert to
1000 meters through the fixed multiplier table at tools.py:83-84 and hand
the same distance to the geometry engine's buffer primitive. -/
theorem C8_buffer_unit_conversion {α β : Type} (bufPrim : α → ℚ → α)
    (rows : List (α × β)) :
    buffer_vector bufPrim rows 1 "Kilometers" = buffer_vector bufPrim rows 1000 "Meters" := by
  have hk : unit_multipliers "Kilometers" = 1000 := by
    rw [unit_multipliers, if_neg (by decide), if_pos rfl]
  have hmt : unit_multipliers "Meters" = 1 := by
    rw [unit_multipliers, if_pos rfl]
  rw [buffer_vector, buffer_vector, hk, hmt]
  norm_num

/-- C10: any unit string outside the table (for example `"Feet"`) is not an
error: `unit_multipliers` silently falls back to 1, so the distance is
interpreted as meters — `buffer_vector` succeeds and equals the
`"Meters"` run. -/
theorem C10_unknown_unit_fallback (u : String)
    (h1 : u ≠ "Meters") (h2 : u ≠ "Kilometers") (h3 : u ≠ "Miles") :
    unit_multipliers u = 1 ∧
    ∀ {α β : Type} (bufPrim : α → ℚ → α) (rows : List (α × β)) (d : ℚ),
      buffer_vector bufPrim rows d u =
        .ok (rows.map (fun row => (bufPrim row.1 (d * 1), row.2))) ∧
      buffer_vector bufPrim rows d u = buffer_vector bufPrim rows d "Meters" := by
  have hm : unit_multipliers u = 1 := by
    rw [unit_multipliers, if_neg h1, if_neg h2, if_neg h3]
  refine ⟨hm, ?_⟩
  intro α β bufPrim rows d
  constructor
  · rw [buffer_vector, hm]
  · have hmt : unit_multipliers "Meters" = 1 := by
      rw [unit_multipliers, if_pos rfl]
    rw [buffer_vector, buffer_vector, hm, hmt]

/-- Witness for C10 at the concrete unit `"Feet"`. -/
theorem C10_unknown_unit_fallback_witness :
    unit_multipliers "Feet" = 1 ∧
    buffer_vector (fun (g : ℚ) d => g + d) [((0 : ℚ), (0 : ℕ))] 2 "Feet" =
      buffer_vector (fun (g : ℚ) d => g + d) [((0 : ℚ), (0 : ℕ))] 2 "Meters" :=
  ⟨(C10_unknown_unit_fallback "Feet" (by decide) (by decide) (by decide)).1,
   ((C10_unknown_unit_fallback "Feet" (by decide) (by decide) (by decide)).2
     (fun (g : ℚ) d => g + d) [((0 : ℚ), (0 : ℕ))] 2).2⟩

end GisChat
